import Mathlib

/-!
Shallow embedding of the vehicle-simulation core of the `web_game` repository
(`src/Car.js`, `src/Track.js`, `src/Controls.js`).

Numeric conventions: JavaScript numbers are modelled as exact rationals (`ℚ`).
The host's trigonometric primitives (`Math.cos` / `Math.sin`, consumed by
three.js when it turns the Euler angles `mesh.rotation.y`,
`visuals.rotation.x`, `visuals.rotation.z` into matrices and quaternions) are a
parameter `trig : ℚ → ℚ × ℚ` giving the (cosine, sine) pair of an angle;
`Math.random()` is an oracle `rand : ℕ → ℚ` indexed by call order within the
frame.  The visual model of the car (procedural or GLTF, an asset chosen at
runtime) enters the physics only through the axis-aligned bounding box that
`new THREE.Box3().setFromObject(this.visuals)` computes; the visual geometry is
therefore a parameter `geom : List Vec3`, the point cloud of the visuals in
car-local space, and the box is the AABB of its world-transformed points.
Purely cosmetic state that nothing in the physics reads back (wheel spin
angles, taillight emissive intensity, the DOM speed readout) is omitted.
-/

namespace WebGame

/-- A three.js `Vector3` with exact rational coordinates. -/
@[ext]
structure Vec3 where
  x : ℚ
  y : ℚ
  z : ℚ
deriving DecidableEq

instance : Add Vec3 := ⟨fun a b => ⟨a.x + b.x, a.y + b.y, a.z + b.z⟩⟩

instance : SMul ℚ Vec3 := ⟨fun q v => ⟨q * v.x, q * v.y, q * v.z⟩⟩

@[simp] theorem Vec3.add_x (a b : Vec3) : (a + b).x = a.x + b.x := rfl

@[simp] theorem Vec3.add_y (a b : Vec3) : (a + b).y = a.y + b.y := rfl

@[simp] theorem Vec3.add_z (a b : Vec3) : (a + b).z = a.z + b.z := rfl

@[simp] theorem Vec3.smul_x (q : ℚ) (v : Vec3) : (q • v).x = q * v.x := rfl

@[simp] theorem Vec3.smul_y (q : ℚ) (v : Vec3) : (q • v).y = q * v.y := rfl

@[simp] theorem Vec3.smul_z (q : ℚ) (v : Vec3) : (q • v).z = q * v.z := rfl

/-- `Vector3.divideScalar` (componentwise division). -/
def divScalar (v : Vec3) (q : ℚ) : Vec3 := ⟨v.x / q, v.y / q, v.z / q⟩

/-- `Vector3.lengthSq`. -/
def lengthSq (v : Vec3) : ℚ := v.x * v.x + v.y * v.y + v.z * v.z

/-- `Math.abs`. -/
def mabs (q : ℚ) : ℚ := if q < 0 then -q else q

/-- `Math.min` (binary). -/
def mmin (a b : ℚ) : ℚ := if a ≤ b then a else b

/-- `Math.max` (binary). -/
def mmax (a b : ℚ) : ℚ := if b ≤ a then a else b

/-- Rotation about the x axis, given the (cos, sin) pair of the angle
(three.js `Matrix4.makeRotationX` applied to a vector). -/
def rotX (cs : ℚ × ℚ) (v : Vec3) : Vec3 :=
  ⟨v.x, cs.1 * v.y - cs.2 * v.z, cs.2 * v.y + cs.1 * v.z⟩

/-- Rotation about the y axis, given the (cos, sin) pair of the angle. -/
def rotY (cs : ℚ × ℚ) (v : Vec3) : Vec3 :=
  ⟨cs.1 * v.x + cs.2 * v.z, v.y, -cs.2 * v.x + cs.1 * v.z⟩

/-- Rotation about the z axis, given the (cos, sin) pair of the angle. -/
def rotZ (cs : ℚ × ℚ) (v : Vec3) : Vec3 :=
  ⟨cs.1 * v.x - cs.2 * v.y, cs.2 * v.x + cs.1 * v.y, v.z⟩

/-- A three.js `Box3`. -/
@[ext]
structure Box3 where
  min : Vec3
  max : Vec3
deriving DecidableEq

/-- `Box3.expandByPoint` (componentwise `Math.min`/`Math.max`). -/
def expandByPoint (b : Box3) (p : Vec3) : Box3 :=
  ⟨⟨mmin b.min.x p.x, mmin b.min.y p.y, mmin b.min.z p.z⟩,
   ⟨mmax b.max.x p.x, mmax b.max.y p.y, mmax b.max.z p.z⟩⟩

/-- Stand-in for the `+Infinity` coordinates of an empty three.js `Box3`;
all geometry modelled here lies far inside this bound. -/
def bigQ : ℚ := 1000000000

/-- The AABB of a finite point set (`Box3.setFromPoints`; `setFromObject`
reduces to this once the object's geometry is flattened to a point cloud).
Starts from the inverted "empty" box exactly as three.js does. -/
def setFromPoints (ps : List Vec3) : Box3 :=
  ps.foldl expandByPoint ⟨⟨bigQ, bigQ, bigQ⟩, ⟨-bigQ, -bigQ, -bigQ⟩⟩

/-- `Box3.expandByScalar s`: `min -= s`, `max += s` componentwise
(the car code calls it with `s = -0.1` to shrink the box). -/
def expandByScalar (b : Box3) (s : ℚ) : Box3 :=
  ⟨⟨b.min.x - s, b.min.y - s, b.min.z - s⟩, ⟨b.max.x + s, b.max.y + s, b.max.z + s⟩⟩

/-- `Box3.intersectsBox` exactly as in three.js: separated on some axis
means no intersection. `a` is the receiver (the car box), `b` the argument. -/
def intersectsBox (a b : Box3) : Bool :=
  !(decide (b.max.x < a.min.x) || decide (b.min.x > a.max.x) ||
    decide (b.max.y < a.min.y) || decide (b.min.y > a.max.y) ||
    decide (b.max.z < a.min.z) || decide (b.min.z > a.max.z))

/-- `Track.checkCollision`: scan the collider list for any intersection. -/
def checkCollision (colliders : List Box3) (carBox : Box3) : Bool :=
  colliders.any (fun c => intersectsBox carBox c)

/-- World position of a car-local point: `visuals.matrixWorld` is
`T(mesh.position) · Ry(mesh.rotation.y) · Rx(visuals.rotation.x) · Rz(visuals.rotation.z)`
(three.js default Euler order `XYZ` with the y component zero on `visuals`). -/
def worldPoint (trig : ℚ → ℚ × ℚ) (pos : Vec3) (yaw pitch roll : ℚ) (q : Vec3) : Vec3 :=
  pos + rotY (trig yaw) (rotX (trig pitch) (rotZ (trig roll) q))

/-- The car's world AABB, `new THREE.Box3().setFromObject(this.visuals)`. -/
def carBoxAt (trig : ℚ → ℚ × ℚ) (geom : List Vec3) (pos : Vec3) (yaw pitch roll : ℚ) : Box3 :=
  setFromPoints (geom.map (worldPoint trig pos yaw pitch roll))

/-- The per-frame input snapshot that `Car.update` reads from
`this.controls.keys`.  `Car.update` dereferences six fields; reading a field a
JS object does not define yields `undefined`, which is falsy, modelled as
`false`. -/
structure Keys where
  forward : Bool
  backward : Bool
  left : Bool
  right : Bool
  nitro : Bool
  respawn : Bool
deriving DecidableEq

/-- `Controls` constructor state: `this.keys = { forward: false, backward:
false, left: false, right: false }` — note that `nitro` and `respawn` are
*not* defined by `Controls.js`; their falsy reads are the `false` here. -/
def controlsInit : Keys :=
  { forward := false, backward := false, left := false, right := false,
    nitro := false, respawn := false }

/-- The key codes `Controls.js` switches on, plus the codes `Car.js`'s
comments promise (`KeyN` for nitro, `KeyR` for respawn) and a catch-all. -/
inductive KeyCode where
  | arrowUp | keyW | arrowLeft | keyA | arrowDown | keyS | arrowRight | keyD
  | keyN | keyR | other
deriving DecidableEq

/-- `Controls.onKeyDown`: the switch has cases only for the eight
arrow/WASD codes; every other code falls through unchanged. -/
def onKeyDown (k : Keys) (c : KeyCode) : Keys :=
  match c with
  | .arrowUp => { k with forward := true }
  | .keyW => { k with forward := true }
  | .arrowLeft => { k with left := true }
  | .keyA => { k with left := true }
  | .arrowDown => { k with backward := true }
  | .keyS => { k with backward := true }
  | .arrowRight => { k with right := true }
  | .keyD => { k with right := true }
  | _ => k

/-- `Controls.onKeyUp`: same eight cases, clearing instead of setting. -/
def onKeyUp (k : Keys) (c : KeyCode) : Keys :=
  match c with
  | .arrowUp => { k with forward := false }
  | .keyW => { k with forward := false }
  | .arrowLeft => { k with left := false }
  | .keyA => { k with left := false }
  | .arrowDown => { k with backward := false }
  | .keyS => { k with backward := false }
  | .arrowRight => { k with right := false }
  | .keyD => { k with right := false }
  | _ => k

/-- One keyboard event: `true` for keydown, `false` for keyup. -/
def applyEvent (k : Keys) (e : Bool × KeyCode) : Keys :=
  if e.1 then onKeyDown k e.2 else onKeyUp k e.2

/-- The physics parameters set in the `Car` constructor (instance fields read
by `update`), with the constructor's values as defaults. -/
structure CarParams where
  maxSpeed : ℚ
  acceleration : ℚ
  friction : ℚ
  brakeFriction : ℚ
  airResistance : ℚ
  turnSpeed : ℚ
  maxSteeringAngle : ℚ
  grip : ℚ

/-- The constructor values: `maxSpeed 3.0`, `acceleration 0.025`, `friction
0.004`, `brakeFriction 0.06`, `airResistance 0.001`, `turnSpeed 0.04`,
`maxSteeringAngle Math.PI/4` (its 64-bit float value as a rational),
`grip 0.85`. -/
def defaultParams : CarParams :=
  { maxSpeed := 3, acceleration := 0.025, friction := 0.004, brakeFriction := 0.06,
    airResistance := 0.001, turnSpeed := 0.04,
    maxSteeringAngle := 0.7853981633974483, grip := 0.85 }

/-- The mutable simulation state of the car that the physics reads and
writes: scalar fields plus `mesh.position` and `mesh.rotation.y` (yaw). -/
@[ext]
structure CarState where
  speed : ℚ
  lateralVelocity : ℚ
  steeringAngle : ℚ
  targetPitch : ℚ
  targetRoll : ℚ
  currentPitch : ℚ
  currentRoll : ℚ
  position : Vec3
  yaw : ℚ
deriving DecidableEq

/-- Step 0 of `Car.update`: respawn.  If the reset intent is set, lift
`position.y` to 50, zero `speed`, `lateralVelocity`, `steeringAngle`, and
clear the flag on the controls object (one-shot). -/
def respawnStep (keys : Keys) (c : CarState) : CarState × Keys :=
  if keys.respawn then
    ({ c with position := { c.position with y := 50 },
              speed := 0, lateralVelocity := 0, steeringAngle := 0 },
     { keys with respawn := false })
  else (c, keys)

/-- Step 0b of `Car.update`: nitro.  Adds 0.5 to speed, caps at
`maxSpeed * 3`, and pushes a fixed 2-unit forward displacement into the
pending movement vector. -/
def nitroStep (p : CarParams) (trig : ℚ → ℚ × ℚ) (keys : Keys) (speed yaw : ℚ) : ℚ × Vec3 :=
  if keys.nitro then
    let s1 := speed + 0.5
    let s2 := if s1 > p.maxSpeed * 3 then p.maxSpeed * 3 else s1
    (s2, (2 : ℚ) • rotY (trig yaw) ⟨0, 0, 1⟩)
  else (speed, ⟨0, 0, 0⟩)

/-- Rolling friction with explicit clamp-to-zero on sign flip
(the no-input branch of step 1 of `Car.update`). -/
def rollFriction (p : CarParams) (s : ℚ) : ℚ :=
  if s > 0 then (if s - p.friction < 0 then 0 else s - p.friction)
  else if s < 0 then (if s + p.friction > 0 then 0 else s + p.friction)
  else s

/-- Step 1 of `Car.update`: engine and torque.  Returns the new speed, the
`isBraking` flag and the `accelerating` flag.  `ratio` is
`currentSpeedRatio = |speed| / maxSpeed`, computed before this step. -/
def engineStep (p : CarParams) (keys : Keys) (ratio s : ℚ) : ℚ × Bool × Bool :=
  if keys.forward then (s + p.acceleration * (1 - ratio * 0.8), false, true)
  else if keys.backward then
    (s - p.brakeFriction, decide (s - p.brakeFriction > 0), false)
  else (rollFriction p s, false, false)

/-- The speed clamp: `Math.min(Math.max(speed, -maxSpeed / 3), maxSpeed)`. -/
def clampSpeed (p : CarParams) (s : ℚ) : ℚ :=
  mmin (mmax s (-(p.maxSpeed / 3))) p.maxSpeed

/-- Quadratic air drag, applied only when `|speed| > 0.01`. -/
def dragStep (p : CarParams) (s : ℚ) : ℚ :=
  if mabs s > 0.01 then s - p.airResistance * s * mabs s else s

/-- Step 3 of `Car.update` (first half): steering-angle update.  Turn input
always moves the angle toward its bound; no input decays it by `0.85`. -/
def steerAngleStep (p : CarParams) (keys : Keys) (sa : ℚ) : ℚ :=
  if keys.left then mmin (sa + p.turnSpeed) p.maxSteeringAngle
  else if keys.right then mmax (sa - p.turnSpeed) (-p.maxSteeringAngle)
  else sa * 0.85

/-- Step 3 of `Car.update` (second half): body rotation and drift injection,
active only while `|speed| > 0.02` and a turn key is held.  Returns the new
yaw and the lateral velocity before the grip decay. -/
def bodyTurnStep (p : CarParams) (keys : Keys) (speed ratio sa yaw lat : ℚ) : ℚ × ℚ :=
  if mabs speed > 0.02 then
    let steerFactor : ℚ := if speed < 0 then -1 else 1
    let turnRate := p.turnSpeed * steerFactor * (1 - ratio * 0.5)
    if keys.left || keys.right then
      (yaw + (if sa > 0 then turnRate else -turnRate),
       lat + (if sa > 0 then (0.01 : ℚ) else -0.01) * ratio)
    else (yaw, lat)
  else (yaw, lat)

/-- The kinematics result: the car state after steps 0–5 of `Car.update`
(before the collision loop), the mutated controls snapshot, and the pending
total displacement for the frame. -/
structure Kin where
  car : CarState
  keys : Keys
  movement : Vec3

/-- Steps 0b–5 of `Car.update` plus the displacement assembly of step 6, for
an input state in which the respawn intent has already been resolved: gravity
pre-pass, nitro, engine/torque, speed clamp, air drag, steering, drift, grip
decay, suspension smoothing, and the total movement vector.  The cosmetic
taillight and wheel-spin writes are omitted (nothing reads them back). -/
def kinCore (p : CarParams) (trig : ℚ → ℚ × ℚ) (keys : Keys) (ca : CarState) : Kin :=
  let grav : Vec3 :=
    if ca.position.y > 0.01 then ⟨0, -(mmin 0.5 ca.position.y), 0⟩ else ⟨0, 0, 0⟩
  let ns := nitroStep p trig keys ca.speed ca.yaw
  let s1 := ns.1
  let ratio := mabs s1 / p.maxSpeed
  let es := engineStep p keys ratio s1
  let isBraking := es.2.1
  let accelerating := es.2.2
  let s3 := clampSpeed p es.1
  let s4 := dragStep p s3
  let sa := steerAngleStep p keys ca.steeringAngle
  let bt := bodyTurnStep p keys s4 ratio sa ca.yaw ca.lateralVelocity
  let yaw1 := bt.1
  let lat1 := bt.2 * p.grip
  let tp : ℚ := if isBraking then -0.015 else if accelerating then 0.01 else 0
  let tr : ℚ := -(sa * ratio * 0.08)
  let cp := ca.currentPitch + (tp - ca.currentPitch) * 0.1
  let cr := ca.currentRoll + (tr - ca.currentRoll) * 0.1
  let mv := grav + ns.2 +
    (if mabs s4 > 0 || mabs lat1 > 0 then
       s4 • rotY (trig yaw1) ⟨0, 0, 1⟩ + lat1 • rotY (trig yaw1) ⟨1, 0, 0⟩
     else ⟨0, 0, 0⟩)
  { car := { speed := s4, lateralVelocity := lat1, steeringAngle := sa,
             targetPitch := tp, targetRoll := tr, currentPitch := cp, currentRoll := cr,
             position := ca.position, yaw := yaw1 },
    keys := keys, movement := mv }

/-- The whole kinematics part of `Car.update` (steps 0–5 plus displacement
assembly): respawn, then `kinCore`. -/
def kinematics (p : CarParams) (trig : ℚ → ℚ × ℚ) (keys : Keys) (c0 : CarState) : Kin :=
  kinCore p trig (respawnStep keys c0).2 (respawnStep keys c0).1

/-- Collision response of `Car.update` (lines inside the sub-step loop after
a hit): `impactSpeed = |speed| + (nitro ? 2 : 0)`; a hard impact
(`impactSpeed > 0.5`) randomises the suspension jolt, deflects yaw, kicks
`lateralVelocity` and bounces with `speed *= -0.2`; otherwise the soft branch
does `speed *= -0.4` and `lateralVelocity *= 0.2`.  `rand` is the
`Math.random()` oracle in call order. -/
def applyImpact (keys : Keys) (rand : ℕ → ℚ) (c : CarState) : CarState :=
  let impactSpeed := mabs c.speed + (if keys.nitro then (2 : ℚ) else 0)
  if impactSpeed > 0.5 then
    { c with currentPitch := (rand 0 - 0.5) * 0.8,
             currentRoll := (rand 1 - 0.5) * 0.8,
             yaw := c.yaw + (rand 2 - 0.5) * impactSpeed * 0.8,
             lateralVelocity := c.lateralVelocity + (rand 3 - 0.5) * impactSpeed * 0.8,
             speed := c.speed * (-0.2) }
  else
    { c with speed := c.speed * (-0.4), lateralVelocity := c.lateralVelocity * 0.2 }

/-- The sub-step loop of `Car.update` step 6: per sub-step, record the
pre-step position, advance by `stp`, and — when a track with colliders is
present (`live`) and the shrunken car box collides — revert the position,
apply the impact response and stop processing further sub-steps. -/
def substepLoop (stp : Vec3) (check : Vec3 → Bool) (live : Bool) (keys : Keys)
    (rand : ℕ → ℚ) : ℕ → CarState → CarState
  | 0, c => c
  | Nat.succ n, c =>
    let p' := c.position + stp
    if live && check p' then applyImpact keys rand c
    else substepLoop stp check live keys rand n { c with position := p' }

/-- The collision query made on each sub-step: the car AABB from the visuals
at the candidate position (with the frame's yaw and the freshly smoothed
visual pitch/roll), shrunk by 0.1, tested against the collider list. -/
def frameCheck (trig : ℚ → ℚ × ℚ) (geom : List Vec3) (colliders : List Box3)
    (c : CarState) : Vec3 → Bool :=
  fun pos =>
    checkCollision colliders
      (expandByScalar (carBoxAt trig geom pos c.yaw c.currentPitch c.currentRoll) (-0.1))

/-- One whole `Car.update(delta)` call: kinematics, then — if the total
movement is nonzero — the 5-sub-step continuous collision loop.  Returns the
new car state and the (possibly respawn-cleared) controls snapshot. -/
def update (p : CarParams) (trig : ℚ → ℚ × ℚ) (geom : List Vec3) (colliders : List Box3)
    (rand : ℕ → ℚ) (keys : Keys) (c0 : CarState) : CarState × Keys :=
  let k := kinematics p trig keys c0
  let c1 :=
    if lengthSq k.movement > 0 then
      substepLoop (divScalar k.movement 5) (frameCheck trig geom colliders k.car)
        (decide (0 < colliders.length)) k.keys rand 5 k.car
    else k.car
  (c1, k.keys)

/-! Concrete instances used by the claim witnesses and counterexamples. -/

/-- All six intents off. -/
def keysOff : Keys :=
  { forward := false, backward := false, left := false, right := false,
    nitro := false, respawn := false }

/-- Only the respawn intent asserted. -/
def keysReset : Keys := { keysOff with respawn := true }

/-- A trig oracle for runs whose only sampled angle is 0 (where the host's
cosine/sine are exactly 1 and 0). -/
def trigId : ℚ → ℚ × ℚ := fun _ => (1, 0)

/-- A degenerate random oracle (never consumed on the soft-impact paths the
witnesses take). -/
def randZero : ℕ → ℚ := fun _ => 0

/-- Visual geometry: the eight corners of a 2×2×2 body whose bottom sits on
the ground plane, spanning `[-1,1] × [0,2] × [-1,1]` in car-local space. -/
def geomBody : List Vec3 :=
  [⟨1, 0, 1⟩, ⟨-1, 0, 1⟩, ⟨1, 0, -1⟩, ⟨-1, 0, -1⟩,
   ⟨1, 2, 1⟩, ⟨-1, 2, 1⟩, ⟨1, 2, -1⟩, ⟨-1, 2, -1⟩]

/-- A car rolling forward at speed 0.5 from the origin, all other state 0. -/
def carHalf : CarState :=
  { speed := 0.5, lateralVelocity := 0, steeringAngle := 0,
    targetPitch := 0, targetRoll := 0, currentPitch := 0, currentRoll := 0,
    position := ⟨0, 0, 0⟩, yaw := 0 }

/-- An obstacle slab at `z ∈ [1.15, 1.18]` that the forward-rolling `carHalf`
first reaches on sub-step 3 of 5. -/
def collSlab : List Box3 := [⟨⟨-1, 0, 1.15⟩, ⟨1, 2, 1.18⟩⟩]

/-- A trig oracle agreeing with the host's cosine/sine at the two angles a
pitch-divergence run samples: angle 0 ↦ (1, 0), and the angle
`0.9272952180016122 ≈ arccos(3/5)` ↦ (3/5, 4/5) (exact to the precision of a
64-bit float). -/
def trigPitch : ℚ → ℚ × ℚ := fun θ => if θ = 0 then (1, 0) else (3/5, 4/5)

/-- An initial `currentPitch` whose smoothed value after one frame is exactly
`0.9272952180016122` (the rational reading of `arccos(3/5)` as a double). -/
def pitchTilt : ℚ := 9272952180016122 / 9000000000000000

/-- An obstacle slab at `z ∈ [2, 2.05]`: out of reach of the level car's box
in one frame, but inside the pitched car's box already on sub-step 1. -/
def collFar : List Box3 := [⟨⟨-1, -1, 2⟩, ⟨1, 3, 2.05⟩⟩]

/-- A car at rest on the ground, every scalar 0. -/
def carRest : CarState :=
  { speed := 0, lateralVelocity := 0, steeringAngle := 0,
    targetPitch := 0, targetRoll := 0, currentPitch := 0, currentRoll := 0,
    position := ⟨0, 0, 0⟩, yaw := 0 }

/-- A car creeping at `speed = 0.003`, slower than any of the friction values
under discussion. -/
def carCreep : CarState := { carRest with speed := 0.003 }

/-- A messy mid-air state used by the respawn witness. -/
def carAirborne : CarState :=
  { speed := 1.7, lateralVelocity := 0.3, steeringAngle := 0.2,
    targetPitch := 0.01, targetRoll := 0.02, currentPitch := 0.03, currentRoll := 0.04,
    position := ⟨5, 3, 7⟩, yaw := 2 }

/-! Helper lemmas about the embedded operations. -/

@[simp] theorem Vec3.add_zero3 (v : Vec3) : v + (⟨0, 0, 0⟩ : Vec3) = v := by
  ext <;> simp

@[simp] theorem Vec3.zero_smul3 (v : Vec3) : (0 : ℚ) • v = (⟨0, 0, 0⟩ : Vec3) := by
  ext <;> simp

theorem Vec3.one_smul3 (v : Vec3) : (1 : ℚ) • v = v := by
  ext <;> simp

theorem Vec3.smul_succ (q : ℚ) (pos stp : Vec3) :
    pos + (q + 1) • stp = (pos + stp) + q • stp := by
  ext <;> simp <;> ring

theorem smul_divScalar (q : ℚ) (v : Vec3) : q • divScalar v 5 = (q / 5) • v := by
  ext <;> simp [divScalar] <;> ring

theorem mabs_eq_abs (q : ℚ) : mabs q = |q| := by
  unfold mabs
  rcases lt_or_le q 0 with h | h
  · rw [if_pos h, abs_of_neg h]
  · rw [if_neg (not_lt.mpr h), abs_of_nonneg h]

theorem mabs_zero : mabs 0 = 0 := by norm_num [mabs]

theorem mmin_eq_min (a b : ℚ) : mmin a b = min a b := by
  unfold mmin
  rw [min_def]

theorem mmax_eq_max (a b : ℚ) : mmax a b = max a b := by
  unfold mmax
  rcases le_total b a with h | h
  · rw [if_pos h, max_eq_left h]
  · rcases eq_or_lt_of_le h with rfl | hlt
    · simp
    · rw [if_neg (not_le.mpr hlt), max_eq_right h]

theorem five_smul_divScalar (v : Vec3) : ((5 : ℕ) : ℚ) • divScalar v 5 = v := by
  ext <;> push_cast <;> simp [divScalar] <;> ring

theorem lengthSq_pos (v : Vec3) (h : v ≠ ⟨0, 0, 0⟩) : 0 < lengthSq v := by
  rcases v with ⟨x, y, z⟩
  show 0 < x * x + y * y + z * z
  have hsum : (0 : ℚ) ≤ x * x + y * y + z * z :=
    add_nonneg (add_nonneg (mul_self_nonneg x) (mul_self_nonneg y)) (mul_self_nonneg z)
  rcases lt_or_eq_of_le hsum with hl | he
  · exact hl
  · exfalso
    apply h
    have hx : x = 0 := by nlinarith [mul_self_nonneg x, mul_self_nonneg y, mul_self_nonneg z]
    have hy : y = 0 := by nlinarith [mul_self_nonneg x, mul_self_nonneg y, mul_self_nonneg z]
    have hz : z = 0 := by nlinarith [mul_self_nonneg x, mul_self_nonneg y, mul_self_nonneg z]
    simp [hx, hy, hz]

theorem eq_zero_of_lengthSq_nonpos (v : Vec3) (h : ¬ lengthSq v > 0) : v = ⟨0, 0, 0⟩ := by
  by_contra hne
  exact h (lengthSq_pos v hne)

theorem applyImpact_hard (keys : Keys) (rand : ℕ → ℚ) (c : CarState)
    (hc : mabs c.speed + (if keys.nitro then (2 : ℚ) else 0) > 0.5) :
    applyImpact keys rand c =
      { c with currentPitch := (rand 0 - 0.5) * 0.8,
               currentRoll := (rand 1 - 0.5) * 0.8,
               yaw := c.yaw
                 + (rand 2 - 0.5) * (mabs c.speed + (if keys.nitro then (2 : ℚ) else 0)) * 0.8,
               lateralVelocity := c.lateralVelocity
                 + (rand 3 - 0.5) * (mabs c.speed + (if keys.nitro then (2 : ℚ) else 0)) * 0.8,
               speed := c.speed * (-0.2) } := by
  simp only [applyImpact]
  rw [if_pos hc]

theorem applyImpact_soft (keys : Keys) (rand : ℕ → ℚ) (c : CarState)
    (hc : ¬ (mabs c.speed + (if keys.nitro then (2 : ℚ) else 0) > 0.5)) :
    applyImpact keys rand c =
      { c with speed := c.speed * (-0.4), lateralVelocity := c.lateralVelocity * 0.2 } := by
  simp only [applyImpact]
  rw [if_neg hc]

theorem applyImpact_position (keys : Keys) (rand : ℕ → ℚ) (c : CarState) :
    (applyImpact keys rand c).position = c.position := by
  by_cases hc : mabs c.speed + (if keys.nitro then (2 : ℚ) else 0) > 0.5
  · rw [applyImpact_hard keys rand c hc]
  · rw [applyImpact_soft keys rand c hc]

theorem applyImpact_steer (keys : Keys) (rand : ℕ → ℚ) (c : CarState) :
    (applyImpact keys rand c).steeringAngle = c.steeringAngle := by
  by_cases hc : mabs c.speed + (if keys.nitro then (2 : ℚ) else 0) > 0.5
  · rw [applyImpact_hard keys rand c hc]
  · rw [applyImpact_soft keys rand c hc]

theorem applyImpact_speed_zero (keys : Keys) (rand : ℕ → ℚ) (c : CarState)
    (hs : c.speed = 0) : (applyImpact keys rand c).speed = 0 := by
  by_cases hc : mabs c.speed + (if keys.nitro then (2 : ℚ) else 0) > 0.5
  · rw [applyImpact_hard keys rand c hc]
    simp [hs]
  · rw [applyImpact_soft keys rand c hc]
    simp [hs]

theorem applyImpact_calm (keys : Keys) (rand : ℕ → ℚ) (c : CarState)
    (hn : keys.nitro = false) (hs : c.speed = 0) (hv : c.lateralVelocity = 0) :
    applyImpact keys rand c = c := by
  have hc : ¬ (mabs c.speed + (if keys.nitro then (2 : ℚ) else 0) > 0.5) := by
    rw [hn, hs, mabs_zero]
    norm_num
  rw [applyImpact_soft keys rand c hc]
  ext <;> simp [hs, hv]

theorem applyImpact_speed_mem (keys : Keys) (rand : ℕ → ℚ) (c : CarState)
    (h1 : -1 ≤ c.speed) (h2 : c.speed ≤ 3) :
    -1 ≤ (applyImpact keys rand c).speed ∧ (applyImpact keys rand c).speed ≤ 3 := by
  by_cases hc : mabs c.speed + (if keys.nitro then (2 : ℚ) else 0) > 0.5
  · rw [applyImpact_hard keys rand c hc]
    dsimp only
    constructor
    · linarith
    · linarith
  · rw [applyImpact_soft keys rand c hc]
    have hX : (0 : ℚ) ≤ (if keys.nitro then (2 : ℚ) else 0) := by split <;> norm_num
    have habs : |c.speed| ≤ 0.5 := by
      rw [mabs_eq_abs] at hc
      have := not_lt.mp hc
      linarith
    rcases abs_le.mp habs with ⟨ha, hb⟩
    dsimp only
    constructor
    · linarith
    · linarith

theorem substepLoop_not_live (stp : Vec3) (check : Vec3 → Bool) (keys : Keys)
    (rand : ℕ → ℚ) : ∀ (n : ℕ) (c : CarState),
    substepLoop stp check false keys rand n c
      = { c with position := c.position + (n : ℚ) • stp } := by
  intro n
  induction n with
  | zero =>
    intro c
    have h : c.position + ((0 : ℕ) : ℚ) • stp = c.position := by
      ext <;> push_cast <;> simp
    simp only [substepLoop, h]
  | succ m ih =>
    intro m_c
    simp only [substepLoop, Bool.false_and, Bool.false_eq_true, if_false]
    rw [ih]
    have h : m_c.position + stp + (m : ℚ) • stp = m_c.position + ((m + 1 : ℕ) : ℚ) • stp := by
      push_cast
      rw [Vec3.smul_succ]
    ext <;> simp [h]

theorem substepLoop_speed_zero (stp : Vec3) (check : Vec3 → Bool) (live : Bool)
    (keys : Keys) (rand : ℕ → ℚ) : ∀ (n : ℕ) (c : CarState), c.speed = 0 →
    (substepLoop stp check live keys rand n c).speed = 0 := by
  intro n
  induction n with
  | zero => intro c hs; simpa [substepLoop] using hs
  | succ m ih =>
    intro c hs
    simp only [substepLoop]
    split
    · exact applyImpact_speed_zero _ _ _ hs
    · exact ih _ hs

theorem substepLoop_steer (stp : Vec3) (check : Vec3 → Bool) (live : Bool)
    (keys : Keys) (rand : ℕ → ℚ) : ∀ (n : ℕ) (c : CarState),
    (substepLoop stp check live keys rand n c).steeringAngle = c.steeringAngle := by
  intro n
  induction n with
  | zero => intro c; simp [substepLoop]
  | succ m ih =>
    intro c
    simp only [substepLoop]
    split
    · exact applyImpact_steer _ _ _
    · exact ih _

theorem substepLoop_calm (stp : Vec3) (check : Vec3 → Bool) (live : Bool)
    (keys : Keys) (rand : ℕ → ℚ) (hn : keys.nitro = false) :
    ∀ (n : ℕ) (c : CarState), c.speed = 0 → c.lateralVelocity = 0 →
    (substepLoop stp check live keys rand n c).speed = 0 ∧
      (substepLoop stp check live keys rand n c).lateralVelocity = 0 := by
  intro n
  induction n with
  | zero => intro c hs hv; exact ⟨hs, hv⟩
  | succ m ih =>
    intro c hs hv
    simp only [substepLoop]
    split
    · rw [applyImpact_calm keys rand c hn hs hv]
      exact ⟨hs, hv⟩
    · exact ih _ hs hv

theorem substepLoop_speed_mem (stp : Vec3) (check : Vec3 → Bool) (live : Bool)
    (keys : Keys) (rand : ℕ → ℚ) : ∀ (n : ℕ) (c : CarState),
    -1 ≤ c.speed → c.speed ≤ 3 →
    -1 ≤ (substepLoop stp check live keys rand n c).speed ∧
      (substepLoop stp check live keys rand n c).speed ≤ 3 := by
  intro n
  induction n with
  | zero => intro c h1 h2; exact ⟨h1, h2⟩
  | succ m ih =>
    intro c h1 h2
    simp only [substepLoop]
    split
    · exact applyImpact_speed_mem _ _ _ h1 h2
    · exact ih _ h1 h2

theorem substepLoop_first_hit (stp : Vec3) (check : Vec3 → Bool) (keys : Keys)
    (rand : ℕ → ℚ) : ∀ (k n : ℕ) (c : CarState), k + 1 ≤ n →
    (∀ j : ℕ, j < k → check (c.position + ((j : ℚ) + 1) • stp) = false) →
    check (c.position + ((k : ℚ) + 1) • stp) = true →
    substepLoop stp check true keys rand n c
      = applyImpact keys rand { c with position := c.position + (k : ℚ) • stp } := by
  intro k
  induction k with
  | zero =>
    intro n c hn hmiss hhit
    rcases n with _ | m
    · omega
    have hc : check (c.position + stp) = true := by
      have h0 : c.position + (((0 : ℕ) : ℚ) + 1) • stp = c.position + stp := by
        push_cast
        rw [Vec3.smul_succ]
        simp
      rw [h0] at hhit
      exact hhit
    simp only [substepLoop, Bool.true_and, hc, if_true]
    have h : c.position + ((0 : ℕ) : ℚ) • stp = c.position := by push_cast; simp
    rw [h]
  | succ k' ih =>
    intro n c hn hmiss hhit
    rcases n with _ | m
    · omega
    have hc : check (c.position + stp) = false := by
      have h0 : c.position + (((0 : ℕ) : ℚ) + 1) • stp = c.position + stp := by
        push_cast
        rw [Vec3.smul_succ]
        simp
      have := hmiss 0 (by omega)
      rwa [h0] at this
    simp only [substepLoop, Bool.true_and, hc, Bool.false_eq_true, if_false]
    rw [ih m { c with position := c.position + stp } (by omega)
      (fun j hj => by
        have := hmiss (j + 1) (by omega)
        have hsh : c.position + (((j + 1 : ℕ) : ℚ) + 1) • stp
            = (c.position + stp) + ((j : ℚ) + 1) • stp := by
          push_cast
          rw [show ((j : ℚ) + 1 + 1) = (((j : ℚ) + 1) + 1) from by ring, Vec3.smul_succ]
        rwa [hsh] at this)
      (by
        have hsh : c.position + (((k' + 1 : ℕ) : ℚ) + 1) • stp
            = (c.position + stp) + ((k' : ℚ) + 1) • stp := by
          push_cast
          rw [show ((k' : ℚ) + 1 + 1) = (((k' : ℚ) + 1) + 1) from by ring, Vec3.smul_succ]
        rwa [hsh] at hhit)]
    have hsh : (c.position + stp) + (k' : ℚ) • stp = c.position + ((k' + 1 : ℕ) : ℚ) • stp := by
      push_cast
      rw [Vec3.smul_succ]
    ext <;> simp [hsh]

theorem rollFriction_zero (p : CarParams) : rollFriction p 0 = 0 := by
  simp [rollFriction]

theorem rollFriction_small (p : CarParams) (s : ℚ) (h : |s| < p.friction) :
    rollFriction p s = 0 := by
  rcases abs_lt.mp h with ⟨h1, h2⟩
  unfold rollFriction
  split
  · rw [if_pos (by linarith)]
  · split
    · rw [if_pos (by linarith)]
    · rename_i hs1 hs2
      linarith [not_lt.mp hs1, not_lt.mp hs2]

theorem clampSpeed_zero (p : CarParams) (hM : 0 ≤ p.maxSpeed) : clampSpeed p 0 = 0 := by
  unfold clampSpeed
  rw [mmin_eq_min, mmax_eq_max,
    max_eq_left (by linarith : -(p.maxSpeed / 3) ≤ 0), min_eq_left hM]

theorem dragStep_zero (p : CarParams) : dragStep p 0 = 0 := by
  simp [dragStep, mabs_zero]

theorem clampSpeed_mem (s : ℚ) :
    -1 ≤ clampSpeed defaultParams s ∧ clampSpeed defaultParams s ≤ 3 := by
  unfold clampSpeed
  rw [mmin_eq_min, mmax_eq_max]
  constructor
  · apply le_min
    · exact le_trans (by norm_num [defaultParams]) (le_max_right _ _)
    · norm_num [defaultParams]
  · exact min_le_right _ _

theorem dragStep_mem (s : ℚ) (h1 : -1 ≤ s) (h2 : s ≤ 3) :
    -1 ≤ dragStep defaultParams s ∧ dragStep defaultParams s ≤ 3 := by
  have hair : defaultParams.airResistance = 0.001 := rfl
  unfold dragStep
  rw [hair]
  simp only [mabs_eq_abs]
  split
  · rcases le_or_lt 0 s with hs | hs
    · rw [abs_of_nonneg hs]
      constructor
      · nlinarith [mul_nonneg hs (by linarith : (0 : ℚ) ≤ 3 - s)]
      · nlinarith [mul_self_nonneg s]
    · rw [abs_of_neg hs]
      constructor
      · nlinarith [mul_self_nonneg s]
      · nlinarith [mul_nonneg (by linarith : (0 : ℚ) ≤ s + 1) (by linarith : (0 : ℚ) ≤ -s)]
  · exact ⟨h1, h2⟩

theorem kinematics_eq (p : CarParams) (trig : ℚ → ℚ × ℚ) (keys : Keys) (c0 : CarState)
    (hr : keys.respawn = false) : kinematics p trig keys c0 = kinCore p trig keys c0 := by
  simp [kinematics, respawnStep, hr]

theorem kinematics_eq_respawn (p : CarParams) (trig : ℚ → ℚ × ℚ) (keys : Keys)
    (c0 : CarState) (hr : keys.respawn = true) :
    kinematics p trig keys c0
      = kinCore p trig { keys with respawn := false }
          { c0 with position := { c0.position with y := 50 },
                    speed := 0, lateralVelocity := 0, steeringAngle := 0 } := by
  simp [kinematics, respawnStep, hr]

theorem kinCore_keys (p : CarParams) (trig : ℚ → ℚ × ℚ) (keys : Keys) (ca : CarState) :
    (kinCore p trig keys ca).keys = keys := rfl

theorem kinCore_position (p : CarParams) (trig : ℚ → ℚ × ℚ) (keys : Keys) (ca : CarState) :
    (kinCore p trig keys ca).car.position = ca.position := rfl

theorem kin_position (p : CarParams) (trig : ℚ → ℚ × ℚ) (keys : Keys) (c0 : CarState)
    (hr : keys.respawn = false) : (kinematics p trig keys c0).car.position = c0.position := by
  rw [kinematics_eq p trig keys c0 hr, kinCore_position]

theorem kinCore_speed (p : CarParams) (trig : ℚ → ℚ × ℚ) (keys : Keys) (ca : CarState)
    (hf : keys.forward = false) (hb : keys.backward = false) (hn : keys.nitro = false) :
    (kinCore p trig keys ca).car.speed
      = dragStep p (clampSpeed p (rollFriction p ca.speed)) := by
  simp [kinCore, nitroStep, engineStep, hf, hb, hn]

theorem kin_speed_mem (trig : ℚ → ℚ × ℚ) (keys : Keys) (c0 : CarState) :
    -1 ≤ (kinematics defaultParams trig keys c0).car.speed ∧
      (kinematics defaultParams trig keys c0).car.speed ≤ 3 := by
  have hshape : ∃ s : ℚ, (kinematics defaultParams trig keys c0).car.speed
      = dragStep defaultParams (clampSpeed defaultParams s) := by
    exact ⟨_, rfl⟩
  obtain ⟨s, hs⟩ := hshape
  rw [hs]
  exact dragStep_mem _ (clampSpeed_mem s).1 (clampSpeed_mem s).2

theorem kinCore_calm (p : CarParams) (trig : ℚ → ℚ × ℚ) (keys : Keys) (ca : CarState)
    (hf : keys.forward = false) (hb : keys.backward = false) (hn : keys.nitro = false)
    (hl : keys.left = false) (hrt : keys.right = false) (hM : 0 ≤ p.maxSpeed)
    (hs : ca.speed = 0) (hv : ca.lateralVelocity = 0) :
    (kinCore p trig keys ca).car.speed = 0 ∧
    (kinCore p trig keys ca).car.lateralVelocity = 0 ∧
    (kinCore p trig keys ca).car.steeringAngle = ca.steeringAngle * 0.85 ∧
    (kinCore p trig keys ca).movement
      = (if ca.position.y > 0.01 then (⟨0, -(mmin 0.5 ca.position.y), 0⟩ : Vec3)
         else ⟨0, 0, 0⟩) := by
  have hroll : rollFriction p 0 = 0 := rollFriction_zero p
  have hclamp : clampSpeed p 0 = 0 := clampSpeed_zero p hM
  have hdrag : dragStep p 0 = 0 := dragStep_zero p
  simp [kinCore, nitroStep, engineStep, steerAngleStep, bodyTurnStep, mabs_zero,
        hf, hb, hn, hl, hrt, hs, hv, hroll, hclamp, hdrag]

theorem kin_pitch_irrel (p : CarParams) (trig : ℚ → ℚ × ℚ) (keys : Keys) (c0 : CarState)
    (a b : ℚ) :
    (kinematics p trig keys { c0 with currentPitch := a, currentRoll := b }).car.position
        = (kinematics p trig keys c0).car.position ∧
    (kinematics p trig keys { c0 with currentPitch := a, currentRoll := b }).car.yaw
        = (kinematics p trig keys c0).car.yaw ∧
    (kinematics p trig keys { c0 with currentPitch := a, currentRoll := b }).car.speed
        = (kinematics p trig keys c0).car.speed ∧
    (kinematics p trig keys { c0 with currentPitch := a, currentRoll := b }).car.lateralVelocity
        = (kinematics p trig keys c0).car.lateralVelocity ∧
    (kinematics p trig keys { c0 with currentPitch := a, currentRoll := b }).movement
        = (kinematics p trig keys c0).movement ∧
    (kinematics p trig keys { c0 with currentPitch := a, currentRoll := b }).keys
        = (kinematics p trig keys c0).keys := by
  cases hr : keys.respawn <;>
    simp [kinematics, respawnStep, kinCore, hr]

/-! The claim theorems. -/

/-- Claim C1: in every frame in which the sub-stepped collision loop runs
(nonzero total displacement, nonempty collider list, no respawn rewriting the
position first) and the geometry query first reports a collision at sub-step
`k` of the 5 equal sub-steps (`1 ≤ k ≤ 5`), the post-frame position equals the
frame's starting position plus exactly `(k-1)/5` of the total displacement:
the colliding sub-step is reverted and, because the loop breaks, sub-steps
`k+1 … 5` are never applied. -/
theorem c1 (p : CarParams) (trig : ℚ → ℚ × ℚ) (geom : List Vec3) (colliders : List Box3)
    (rand : ℕ → ℚ) (keys : Keys) (c0 : CarState) (k : ℕ)
    (hr : keys.respawn = false) (hcol : colliders ≠ [])
    (hk1 : 1 ≤ k) (hk5 : k ≤ 5)
    (hM : (kinematics p trig keys c0).movement ≠ ⟨0, 0, 0⟩)
    (hmiss : ∀ j : ℕ, 1 ≤ j → j < k →
      frameCheck trig geom colliders (kinematics p trig keys c0).car
        (c0.position + ((j : ℚ) / 5) • (kinematics p trig keys c0).movement) = false)
    (hhit : frameCheck trig geom colliders (kinematics p trig keys c0).car
        (c0.position + ((k : ℚ) / 5) • (kinematics p trig keys c0).movement) = true) :
    ((update p trig geom colliders rand keys c0).1).position
      = c0.position + (((k : ℚ) - 1) / 5) • (kinematics p trig keys c0).movement := by
  obtain ⟨k0, rfl⟩ : ∃ k0, k = k0 + 1 := ⟨k - 1, by omega⟩
  have hpos : (kinematics p trig keys c0).car.position = c0.position :=
    kin_position p trig keys c0 hr
  have hlen : lengthSq (kinematics p trig keys c0).movement > 0 :=
    lengthSq_pos _ hM
  have hlive : decide (0 < colliders.length) = true := by
    rw [decide_eq_true_eq]
    exact List.length_pos.mpr hcol
  have hshift : ∀ q : ℚ, (kinematics p trig keys c0).car.position
      + q • divScalar (kinematics p trig keys c0).movement 5
      = c0.position + (q / 5) • (kinematics p trig keys c0).movement := by
    intro q
    rw [hpos, smul_divScalar]
  have H := substepLoop_first_hit (divScalar (kinematics p trig keys c0).movement 5)
    (frameCheck trig geom colliders (kinematics p trig keys c0).car)
    (kinematics p trig keys c0).keys rand k0 5 (kinematics p trig keys c0).car
    (by omega)
    (fun j hj => by
      rw [hshift]
      have h := hmiss (j + 1) (by omega) (by omega)
      push_cast at h ⊢
      exact h)
    (by
      rw [hshift]
      have h := hhit
      push_cast at h ⊢
      exact h)
  simp only [update, if_pos hlen, hlive]
  rw [H, applyImpact_position]
  dsimp only
  rw [hshift]
  ext <;> push_cast <;> simp

/-- Claim C2: for every frame and every input combination (boost included),
the speed after the clamp step lies in `[-maxSpeed/3, maxSpeed]`, and the same
bound still holds on the speed stored at the end of the whole update, after
drag and any collision response. -/
theorem c2 (trig : ℚ → ℚ × ℚ) (geom : List Vec3) (colliders : List Box3)
    (rand : ℕ → ℚ) (keys : Keys) (c0 : CarState) :
    (∀ s : ℚ, -(defaultParams.maxSpeed / 3) ≤ clampSpeed defaultParams s
        ∧ clampSpeed defaultParams s ≤ defaultParams.maxSpeed) ∧
    (-(defaultParams.maxSpeed / 3)
        ≤ ((update defaultParams trig geom colliders rand keys c0).1).speed
      ∧ ((update defaultParams trig geom colliders rand keys c0).1).speed
        ≤ defaultParams.maxSpeed) := by
  have hM3 : -(defaultParams.maxSpeed / 3) = -1 := by norm_num [defaultParams]
  have hM : defaultParams.maxSpeed = (3 : ℚ) := rfl
  constructor
  · intro s
    rw [hM3, hM]
    exact clampSpeed_mem s
  · rw [hM3, hM]
    have hkin := kin_speed_mem trig keys c0
    simp only [update]
    split
    · exact substepLoop_speed_mem _ _ _ _ _ 5 _ hkin.1 hkin.2
    · exact hkin

/-- Claim C3: the hard-impact test is strict `>`, so an `impactSpeed` exactly
equal to the threshold 0.5 takes the soft branch.  On a hard impact
(`impactSpeed > 0.5`) speed is multiplied by −0.2 with a randomized pitch/roll
jolt, a yaw deflection and a lateralVelocity kick; otherwise
(`impactSpeed ≤ 0.5`) speed is multiplied by −0.4, lateralVelocity by 0.2, and
pitch, roll and yaw are untouched. -/
theorem c3 (keys : Keys) (rand : ℕ → ℚ) (c : CarState) :
    (mabs c.speed + (if keys.nitro then (2 : ℚ) else 0) ≤ 0.5 →
      applyImpact keys rand c
        = { c with speed := c.speed * (-0.4),
                   lateralVelocity := c.lateralVelocity * 0.2 }) ∧
    (mabs c.speed + (if keys.nitro then (2 : ℚ) else 0) > 0.5 →
      applyImpact keys rand c
        = { c with currentPitch := (rand 0 - 0.5) * 0.8,
                   currentRoll := (rand 1 - 0.5) * 0.8,
                   yaw := c.yaw
                     + (rand 2 - 0.5) * (mabs c.speed + (if keys.nitro then (2 : ℚ) else 0)) * 0.8,
                   lateralVelocity := c.lateralVelocity
                     + (rand 3 - 0.5) * (mabs c.speed + (if keys.nitro then (2 : ℚ) else 0)) * 0.8,
                   speed := c.speed * (-0.2) }) := by
  constructor
  · intro h
    exact applyImpact_soft keys rand c (not_lt.mpr h)
  · intro h
    exact applyImpact_hard keys rand c h

/-- Claim C3 witness: at `impactSpeed` exactly 0.5 (speed 0.5, no nitro) the
soft branch is taken. -/
theorem c3_witness :
    mabs carHalf.speed + (if keysOff.nitro then (2 : ℚ) else 0) ≤ 0.5 ∧
    applyImpact keysOff randZero carHalf
      = { carHalf with speed := carHalf.speed * (-0.4),
                       lateralVelocity := carHalf.lateralVelocity * 0.2 } :=
  ⟨by norm_num [mabs, carHalf, keysOff],
   (c3 keysOff randZero carHalf).1 (by norm_num [mabs, carHalf, keysOff])⟩

/-- Claim C4 (amended): the suspension pitch/roll state never affects the
kinematics, and with an empty geometry index two updates that differ only in
the initial `currentPitch`/`currentRoll` produce the same post-frame position,
yaw, speed and lateralVelocity.  (The unrestricted claim is false: the
collision query's bounding box is computed from the pitched/rolled visuals
group, so with obstacles present the initial pitch/roll can change the
collision outcome and hence position and speed — see the counterexample.) -/
theorem c4 (p : CarParams) (trig : ℚ → ℚ × ℚ) (geom : List Vec3) (rand : ℕ → ℚ)
    (keys : Keys) (c0 : CarState) (a b : ℚ) :
    ((update p trig geom [] rand keys { c0 with currentPitch := a, currentRoll := b }).1).position
        = ((update p trig geom [] rand keys c0).1).position ∧
    ((update p trig geom [] rand keys { c0 with currentPitch := a, currentRoll := b }).1).yaw
        = ((update p trig geom [] rand keys c0).1).yaw ∧
    ((update p trig geom [] rand keys { c0 with currentPitch := a, currentRoll := b }).1).speed
        = ((update p trig geom [] rand keys c0).1).speed ∧
    ((update p trig geom [] rand keys
        { c0 with currentPitch := a, currentRoll := b }).1).lateralVelocity
        = ((update p trig geom [] rand keys c0).1).lateralVelocity := by
  obtain ⟨hpos, hyaw, hspd, hlat, hmov, hkeys⟩ := kin_pitch_irrel p trig keys c0 a b
  have hlive : decide (0 < ([] : List Box3).length) = false := rfl
  simp only [update, hlive, hmov, hkeys]
  split
  · rw [substepLoop_not_live, substepLoop_not_live]
    refine ⟨?_, ?_, ?_, ?_⟩ <;> dsimp only <;> simp [hpos, hyaw, hspd, hlat]
  · exact ⟨hpos, hyaw, hspd, hlat⟩

/-- Claim C4 counterexample: with an obstacle present, two updates differing
only in the initial `currentPitch` (0 versus a tilt whose smoothed value is
`arccos(3/5)` to double precision) give different post-frame positions and
speeds: the pitched visuals' AABB reaches the obstacle on sub-step 1 while the
level one never does. -/
theorem c4_counterexample :
    ¬ (((update defaultParams trigPitch geomBody collFar randZero keysOff
            { carHalf with currentPitch := pitchTilt }).1).position
          = ((update defaultParams trigPitch geomBody collFar randZero keysOff carHalf).1).position
        ∧ ((update defaultParams trigPitch geomBody collFar randZero keysOff
            { carHalf with currentPitch := pitchTilt }).1).speed
          = ((update defaultParams trigPitch geomBody collFar randZero keysOff carHalf).1).speed) := by
  norm_num [update, kinematics, kinCore, respawnStep, nitroStep, engineStep, rollFriction,
      clampSpeed, dragStep, steerAngleStep, bodyTurnStep, substepLoop, applyImpact, frameCheck,
      checkCollision, carBoxAt, setFromPoints, expandByPoint, expandByScalar, intersectsBox,
      worldPoint, rotX, rotY, rotZ, divScalar, lengthSq, mabs, mmin, mmax, bigQ, trigId, trigPitch,
      pitchTilt, geomBody, collSlab, collFar, carHalf, keysOff, randZero, defaultParams,
      Vec3.ext_iff]

/-- Claim C5: rolling-friction decay never overshoots zero: with no
forward/backward/boost input and `|speed| < friction`, one update step yields
speed exactly 0 (this covers `0 < s < friction` and the symmetric negative
case; in particular `s = 0.003` with `friction = 0.005`, see the witness). -/
theorem c5 (p : CarParams) (trig : ℚ → ℚ × ℚ) (geom : List Vec3) (colliders : List Box3)
    (rand : ℕ → ℚ) (keys : Keys) (c0 : CarState)
    (hf : keys.forward = false) (hb : keys.backward = false) (hn : keys.nitro = false)
    (hM : 0 ≤ p.maxSpeed) (hs : mabs c0.speed < p.friction) :
    ((update p trig geom colliders rand keys c0).1).speed = 0 := by
  rw [mabs_eq_abs] at hs
  have hker : (kinematics p trig keys c0).car.speed = 0 := by
    cases hr : keys.respawn
    · rw [kinematics_eq p trig keys c0 hr, kinCore_speed p trig keys c0 hf hb hn,
        rollFriction_small p c0.speed hs, clampSpeed_zero p hM, dragStep_zero]
    · rw [kinematics_eq_respawn p trig keys c0 hr,
        kinCore_speed p trig { keys with respawn := false }
          { c0 with position := { c0.position with y := 50 },
                    speed := 0, lateralVelocity := 0, steeringAngle := 0 } hf hb hn]
      dsimp only
      rw [rollFriction_zero, clampSpeed_zero p hM, dragStep_zero]
  simp only [update]
  split
  · exact substepLoop_speed_zero _ _ _ _ _ 5 _ hker
  · exact hker

/-- Claim C5 witness: `speed = 0.003` with `friction = 0.005` and no input
decays to exactly 0 in one step. -/
theorem c5_witness :
    mabs carCreep.speed < ({ defaultParams with friction := 0.005 } : CarParams).friction ∧
    ((update { defaultParams with friction := 0.005 } trigId geomBody [] randZero
        keysOff carCreep).1).speed = 0 :=
  ⟨by norm_num [mabs, carCreep, carRest, defaultParams],
   c5 { defaultParams with friction := 0.005 } trigId geomBody [] randZero keysOff carCreep
     rfl rfl rfl (by norm_num [defaultParams])
     (by norm_num [mabs, carCreep, carRest, defaultParams])⟩

/-- Claim C6: idempotence of rest: from `speed = 0`, `lateralVelocity = 0`, a
grounded position (`position.y ≤ 0.01`) and no input asserted, one update
leaves speed and lateralVelocity exactly 0 and the position unchanged. -/
theorem c6 (p : CarParams) (trig : ℚ → ℚ × ℚ) (geom : List Vec3) (colliders : List Box3)
    (rand : ℕ → ℚ) (c0 : CarState)
    (hM : 0 ≤ p.maxSpeed) (hs : c0.speed = 0) (hv : c0.lateralVelocity = 0)
    (hy : c0.position.y ≤ 0.01) :
    ((update p trig geom colliders rand keysOff c0).1).speed = 0 ∧
    ((update p trig geom colliders rand keysOff c0).1).lateralVelocity = 0 ∧
    ((update p trig geom colliders rand keysOff c0).1).position = c0.position := by
  have hkin : kinematics p trig keysOff c0 = kinCore p trig keysOff c0 :=
    kinematics_eq p trig keysOff c0 rfl
  obtain ⟨h1, h2, h3, h4⟩ := kinCore_calm p trig keysOff c0 rfl rfl rfl rfl rfl hM hs hv
  have hmov : (kinCore p trig keysOff c0).movement = ⟨0, 0, 0⟩ := by
    rw [h4, if_neg (not_lt.mpr hy)]
  have hcond : ¬ lengthSq (kinematics p trig keysOff c0).movement > 0 := by
    rw [hkin, hmov]
    norm_num [lengthSq]
  simp only [update, if_neg hcond]
  rw [hkin]
  exact ⟨h1, h2, kinCore_position p trig keysOff c0⟩

/-- Claim C6 witness: the rest state next to the obstacle slab is a fixpoint
of the update. -/
theorem c6_witness :
    carRest.speed = 0 ∧
    ((update defaultParams trigId geomBody collSlab randZero keysOff carRest).1).speed = 0 ∧
    ((update defaultParams trigId geomBody collSlab randZero keysOff
        carRest).1).lateralVelocity = 0 ∧
    ((update defaultParams trigId geomBody collSlab randZero keysOff carRest).1).position
      = carRest.position :=
  ⟨rfl, c6 defaultParams trigId geomBody collSlab randZero carRest
    (by norm_num [defaultParams]) rfl rfl (by norm_num [carRest])⟩

/-- Claim C7: respawn is one-shot and edge-triggered: with the reset intent
asserted (and no other input), the respawn step sets `position.y` to 50 and
zeros speed, lateralVelocity and steeringAngle; the update returns the
controls with the flag cleared and ends the frame with the three scalars
still 0; and on a second consecutive update the respawn phase — fed the
cleared flag — is the identity, so the drop is not re-triggered. -/
theorem c7 (p : CarParams) (trig : ℚ → ℚ × ℚ) (geom : List Vec3) (colliders : List Box3)
    (rand : ℕ → ℚ) (keys : Keys) (c0 : CarState)
    (hr : keys.respawn = true) (hf : keys.forward = false) (hb : keys.backward = false)
    (hn : keys.nitro = false) (hl : keys.left = false) (hrt : keys.right = false)
    (hM : 0 ≤ p.maxSpeed) :
    (respawnStep keys c0).1.position.y = 50 ∧
    ((update p trig geom colliders rand keys c0).2).respawn = false ∧
    ((update p trig geom colliders rand keys c0).1).speed = 0 ∧
    ((update p trig geom colliders rand keys c0).1).lateralVelocity = 0 ∧
    ((update p trig geom colliders rand keys c0).1).steeringAngle = 0 ∧
    respawnStep ((update p trig geom colliders rand keys c0).2)
        ((update p trig geom colliders rand keys c0).1)
      = (((update p trig geom colliders rand keys c0).1),
         ((update p trig geom colliders rand keys c0).2)) := by
  have hkin := kinematics_eq_respawn p trig keys c0 hr
  have hup2 : (update p trig geom colliders rand keys c0).2
      = { keys with respawn := false } := by
    simp only [update]
    rw [hkin]
    rfl
  obtain ⟨h1, h2, h3, h4⟩ := kinCore_calm p trig { keys with respawn := false }
      { c0 with position := { c0.position with y := 50 },
                speed := 0, lateralVelocity := 0, steeringAngle := 0 }
      hf hb hn hl hrt hM rfl rfl
  have hsa : (kinCore p trig { keys with respawn := false }
      { c0 with position := { c0.position with y := 50 },
                speed := 0, lateralVelocity := 0, steeringAngle := 0 }).car.steeringAngle
      = 0 := by
    rw [h3]
    norm_num
  have hloop : ((update p trig geom colliders rand keys c0).1).speed = 0 ∧
      ((update p trig geom colliders rand keys c0).1).lateralVelocity = 0 ∧
      ((update p trig geom colliders rand keys c0).1).steeringAngle = 0 := by
    simp only [update]
    rw [hkin, kinCore_keys]
    split
    · refine ⟨?_, ?_, ?_⟩
      · exact (substepLoop_calm _ _ _ _ rand hn 5 _ h1 h2).1
      · exact (substepLoop_calm _ _ _ _ rand hn 5 _ h1 h2).2
      · rw [substepLoop_steer]
        exact hsa
    · exact ⟨h1, h2, hsa⟩
  refine ⟨by simp [respawnStep, hr], by rw [hup2], hloop.1, hloop.2.1, hloop.2.2, ?_⟩
  rw [hup2]
  simp [respawnStep]

/-- Claim C7 witness: a messy airborne state with the reset intent pressed. -/
theorem c7_witness :
    keysReset.respawn = true ∧
    (respawnStep keysReset carAirborne).1.position.y = 50 ∧
    ((update defaultParams trigId geomBody [] randZero keysReset carAirborne).2).respawn
      = false ∧
    ((update defaultParams trigId geomBody [] randZero keysReset carAirborne).1).speed = 0 ∧
    ((update defaultParams trigId geomBody [] randZero keysReset
        carAirborne).1).lateralVelocity = 0 ∧
    ((update defaultParams trigId geomBody [] randZero keysReset
        carAirborne).1).steeringAngle = 0 ∧
    respawnStep ((update defaultParams trigId geomBody [] randZero keysReset carAirborne).2)
        ((update defaultParams trigId geomBody [] randZero keysReset carAirborne).1)
      = (((update defaultParams trigId geomBody [] randZero keysReset carAirborne).1),
         ((update defaultParams trigId geomBody [] randZero keysReset carAirborne).2)) :=
  ⟨rfl, c7 defaultParams trigId geomBody [] randZero keysReset carAirborne
    rfl rfl rfl rfl rfl rfl (by norm_num [defaultParams])⟩

/-- Claim C8: with an empty `StaticGeometryIndex` the collision check is
skipped and every displacement is fully accepted: the post-frame position is
the starting position plus the entire total displacement (stated for frames
without a respawn, which rewrites the starting position before movement). -/
theorem c8 (p : CarParams) (trig : ℚ → ℚ × ℚ) (geom : List Vec3) (rand : ℕ → ℚ)
    (keys : Keys) (c0 : CarState) (hr : keys.respawn = false) :
    ((update p trig geom [] rand keys c0).1).position
      = c0.position + (kinematics p trig keys c0).movement := by
  have hpos := kin_position p trig keys c0 hr
  have hlive : decide (0 < ([] : List Box3).length) = false := rfl
  simp only [update, hlive]
  split
  · rw [substepLoop_not_live]
    dsimp only
    rw [hpos, five_smul_divScalar]
  · rename_i hc
    have hz := eq_zero_of_lengthSq_nonpos _ hc
    rw [hz, hpos]
    simp

/-- Claim C8 witness: the forward-rolling car with no obstacles takes its full
displacement. -/
theorem c8_witness :
    keysOff.respawn = false ∧
    ((update defaultParams trigId geomBody [] randZero keysOff carHalf).1).position
      = carHalf.position + (kinematics defaultParams trigId keysOff carHalf).movement :=
  ⟨rfl, c8 defaultParams trigId geomBody randZero keysOff carHalf rfl⟩

/-- Claim C9 (the code contradicts it): no sequence of keyboard events can
ever set the `nitro` (boost) or `respawn` (reset) intents, because
`Controls.js` neither initialises those fields nor has `switch` cases for
their keys — even though `Car.update` reads both and its comments promise the
N and R keys.  Four of the six intents exist; boost and reset are dead. -/
theorem c9 (events : List (Bool × KeyCode)) :
    (events.foldl applyEvent controlsInit).nitro = false ∧
    (events.foldl applyEvent controlsInit).respawn = false := by
  have key : ∀ (k : Keys) (e : Bool × KeyCode),
      (applyEvent k e).nitro = k.nitro ∧ (applyEvent k e).respawn = k.respawn := by
    intro k e
    rcases e with ⟨d, c⟩
    cases d <;> cases c <;> simp [applyEvent, onKeyDown, onKeyUp]
  have main : ∀ (l : List (Bool × KeyCode)) (k : Keys),
      (l.foldl applyEvent k).nitro = k.nitro ∧ (l.foldl applyEvent k).respawn = k.respawn := by
    intro l
    induction l with
    | nil => intro k; exact ⟨rfl, rfl⟩
    | cons e t ih =>
      intro k
      rw [List.foldl_cons]
      obtain ⟨h1, h2⟩ := ih (applyEvent k e)
      obtain ⟨g1, g2⟩ := key k e
      exact ⟨h1.trans g1, h2.trans g2⟩
  simpa using main events controlsInit

/-- Claim C10: the quadratic air-drag step never flips the sign of speed on
the reachable range: for `0.01 < |s| ≤ 9` (three times `maxSpeed`), drag
strictly reduces `|s|` and keeps its sign — a flip would need `|s| ≥ 1000`
since the multiplier is `1 - 0.001·|s|`. -/
theorem c10 (s : ℚ) (h1 : 1 / 100 < mabs s) (h2 : mabs s ≤ 9) :
    (0 < s → 0 < dragStep defaultParams s ∧ dragStep defaultParams s < s) ∧
    (s < 0 → s < dragStep defaultParams s ∧ dragStep defaultParams s < 0) := by
  rw [mabs_eq_abs] at h1 h2
  have hair : defaultParams.airResistance = 0.001 := rfl
  have hcond : mabs s > 0.01 := by
    rw [mabs_eq_abs]
    linarith
  have heq : dragStep defaultParams s = s - 0.001 * s * |s| := by
    unfold dragStep
    rw [hair, if_pos hcond, mabs_eq_abs]
  constructor
  · intro hs
    rw [heq, abs_of_pos hs]
    rw [abs_of_pos hs] at h2
    constructor
    · nlinarith [mul_nonneg (le_of_lt hs) (by linarith : (0 : ℚ) ≤ 9 - s)]
    · nlinarith [mul_pos hs hs]
  · intro hs
    rw [heq, abs_of_neg hs]
    rw [abs_of_neg hs] at h2
    constructor
    · nlinarith [mul_pos (by linarith : (0 : ℚ) < -s) (by linarith : (0 : ℚ) < -s)]
    · nlinarith [mul_nonneg (by linarith : (0 : ℚ) ≤ -s) (by linarith : (0 : ℚ) ≤ 9 + s)]

/-- Claim C10 witness: drag at speed 2 stays positive and strictly shrinks. -/
theorem c10_witness :
    0 < dragStep defaultParams 2 ∧ dragStep defaultParams 2 < 2 :=
  (c10 2 (by norm_num [mabs]) (by norm_num [mabs])).1 (by norm_num)

/-- Claim C1 witness: first collision at sub-step 3 of 5 leaves the car at
the start plus two fifths of the displacement. -/
theorem c1_witness :
    collSlab ≠ ([] : List Box3) ∧
    ((update defaultParams trigId geomBody collSlab randZero keysOff carHalf).1).position
      = carHalf.position
        + ((((3 : ℕ) : ℚ) - 1) / 5) • (kinematics defaultParams trigId keysOff carHalf).movement :=
  ⟨by simp [collSlab],
   c1 defaultParams trigId geomBody collSlab randZero keysOff carHalf 3 rfl (by simp [collSlab])
     (by norm_num) (by norm_num)
     (by norm_num [update, kinematics, kinCore, respawnStep, nitroStep, engineStep, rollFriction,
      clampSpeed, dragStep, steerAngleStep, bodyTurnStep, substepLoop, applyImpact, frameCheck,
      checkCollision, carBoxAt, setFromPoints, expandByPoint, expandByScalar, intersectsBox,
      worldPoint, rotX, rotY, rotZ, divScalar, lengthSq, mabs, mmin, mmax, bigQ, trigId, trigPitch,
      pitchTilt, geomBody, collSlab, collFar, carHalf, keysOff, randZero, defaultParams,
      Vec3.ext_iff])
     (fun j hj1 hj2 => by
       interval_cases j <;>
         norm_num [update, kinematics, kinCore, respawnStep, nitroStep, engineStep, rollFriction,
      clampSpeed, dragStep, steerAngleStep, bodyTurnStep, substepLoop, applyImpact, frameCheck,
      checkCollision, carBoxAt, setFromPoints, expandByPoint, expandByScalar, intersectsBox,
      worldPoint, rotX, rotY, rotZ, divScalar, lengthSq, mabs, mmin, mmax, bigQ, trigId, trigPitch,
      pitchTilt, geomBody, collSlab, collFar, carHalf, keysOff, randZero, defaultParams,
      Vec3.ext_iff])
     (by norm_num [update, kinematics, kinCore, respawnStep, nitroStep, engineStep, rollFriction,
      clampSpeed, dragStep, steerAngleStep, bodyTurnStep, substepLoop, applyImpact, frameCheck,
      checkCollision, carBoxAt, setFromPoints, expandByPoint, expandByScalar, intersectsBox,
      worldPoint, rotX, rotY, rotZ, divScalar, lengthSq, mabs, mmin, mmax, bigQ, trigId, trigPitch,
      pitchTilt, geomBody, collSlab, collFar, carHalf, keysOff, randZero, defaultParams,
      Vec3.ext_iff])⟩

end WebGame
